import Mathlib

/-!
Shallow embedding of the mandelbrot-rs render-graph program (`src/main.rs`).

The program drives a per-frame GPU compute dispatch.  The parts embedded
here are the parts with real logic:

* the configuration constants (`DISPLAY_FACTOR`, `SIZE`, `WORKGROUP_SIZE`);
* the CPU-side `Uniforms` counter and `prepare_bind_group`, which increments
  it once per render tick and rebuilds the bind group;
* `update_uniforms`, the uniform synchronizer with its single in-flight
  atomic gate (`MAPPED`), its asynchronous staging-buffer map request, the
  map-completion callback, and the blocking device poll;
* the `MandelbrotNode` render-graph state machine (`update` and `run`),
  which polls the external pipeline cache, gates the compute dispatch on
  pipeline readiness, and records the staging-to-uniform buffer copy and
  the dispatch into the command encoder.

Machine integers (`u32`) are modelled as `Nat` with explicit `% 2 ^ 32`
where overflow could occur.  Panics are modelled as `Except String`.
The external pipeline cache (a bevy collaborator, not part of this
repository) is modelled by its interface: a pipeline compile state that,
once `Ok`, stays `Ok` and yields the compiled pipeline by id.
-/

namespace Mandelbrot

/-- `const DISPLAY_FACTOR: u32 = 1;` (src/main.rs line 49). -/
def DISPLAY_FACTOR : Nat := 1

/-- `const SIZE: (u32, u32) = (1280 / DISPLAY_FACTOR, 720 / DISPLAY_FACTOR);`
(src/main.rs line 50). -/
def SIZE : Nat × Nat := (1280 / DISPLAY_FACTOR, 720 / DISPLAY_FACTOR)

/-- `const WORKGROUP_SIZE: u32 = 8;` (src/main.rs line 51). -/
def WORKGROUP_SIZE : Nat := 8

/-- `const SHADER_ASSET_PATH: &str = "mandelbrot.wgsl";` (src/main.rs line 47). -/
def SHADER_ASSET_PATH : String := "mandelbrot.wgsl"

/-- `struct Uniforms { time: u32 }` (src/main.rs lines 53-57).  The single
32-bit counter field; `time` is kept as a `Nat` understood mod `2 ^ 32`. -/
structure Uniforms where
  time : Nat
deriving Repr, DecidableEq

/-- `size_of::<Uniforms>()`: one `u32` field, 4 bytes. -/
def uniformsByteSize : Nat := 4

/-! ## Uniform synchronizer (`update_uniforms`, src/main.rs lines 132-169)

The synchronizer state gathers the `static MAPPED: AtomicBool` gate, the
set of outstanding asynchronous map requests (each remembering the
`Uniforms` value moved into its callback closure), and the contents of the
staging buffer (`mapped_uniform_buffer`).  Although the program can never
have more than one request outstanding, the state allows a list of them so
that the single-in-flight property is a proved invariant rather than a
modelling assumption. -/

structure SyncState where
  /-- the `MAPPED` atomic flag. -/
  mapped : Bool
  /-- outstanding `map_async` requests; each entry is the `uniform_data`
  value captured by value (`let uniform_data = *uniform_data;`) when the
  request was issued, in issue order. -/
  outstanding : List Uniforms
  /-- current contents of the staging buffer (`mapped_uniform_buffer`). -/
  staging : Uniforms
deriving Repr, DecidableEq

/-- Observable effects of one `update_uniforms` call. -/
inductive SyncEffect where
  /-- `mapped_uniform_buffer.slice(..).map_async(MapMode::Write, ...)` with
  the `Uniforms` value the closure captured. -/
  | mapRequest (captured : Uniforms)
  /-- `render_device.poll(PollType::Wait)`. -/
  | pollWait
deriving Repr, DecidableEq

/-- One step of the synchronizer's execution: either a render tick running
`update_uniforms` with the current CPU-side counter value, or the
asynchronous map callback firing with the map result (`Ok`/`Err`). -/
inductive SyncStep where
  | tick (current : Uniforms)
  | fireOk
  | fireErr (msg : String)
deriving Repr, DecidableEq

/-- `update_uniforms` body (src/main.rs lines 132-169) together with the
map-completion callback (lines 150-164).

On a tick: `uniform_data` is copied by value, then
`if MAPPED.swap(true, SeqCst) { return; }` — when the gate is already set
the function returns at once, issuing no map request and *skipping the
`render_device.poll(PollType::Wait)` at lines 166-168*.  Otherwise it
issues the map request (the closure owning the copied `uniform_data`) and
then performs the blocking poll.

On a callback fire with `Ok`: the closure writes the bytes of its captured
`uniform_data` into the mapped staging buffer, unmaps, and clears `MAPPED`.
On `Err(err)`: `panic!("Failed to map buffer {err}")`. -/
def syncStep : SyncStep → SyncState → Except String (SyncState × List SyncEffect)
  | .tick current, s =>
    if s.mapped then
      -- MAPPED.swap(true) returned true: early return, no effects
      .ok (s, [])
    else
      .ok ({ s with mapped := true, outstanding := s.outstanding ++ [current] },
           [.mapRequest current, .pollWait])
  | .fireOk, s =>
    match s.outstanding with
    | [] => .ok (s, [])
    | captured :: rest =>
      .ok ({ mapped := false, outstanding := rest, staging := captured }, [])
  | .fireErr msg, _ => .error ("Failed to map buffer " ++ msg)

/-- Initial synchronizer state: `MAPPED` initialized `false`, the staging
buffer initialized with `Uniforms { time: 0 }` (src/main.rs lines 210-220),
no request outstanding. -/
def syncInit : SyncState := { mapped := false, outstanding := [], staging := ⟨0⟩ }

/-- Run a sequence of synchronizer steps from a state, discarding effects. -/
def syncRun (s : SyncState) : List SyncStep → Except String SyncState
  | [] => .ok s
  | step :: rest =>
    match syncStep step s with
    | .ok (s', _) => syncRun s' rest
    | .error e => .error e

/-- The single-in-flight invariant: the gate is set exactly when one map
request is outstanding. -/
def SyncInv (s : SyncState) : Prop :=
  (s.mapped = true ∧ s.outstanding.length = 1) ∨
  (s.mapped = false ∧ s.outstanding = [])

instance (s : SyncState) : Decidable (SyncInv s) := by
  unfold SyncInv; infer_instance

theorem syncInv_init : SyncInv syncInit := by
  right; exact ⟨rfl, rfl⟩

theorem syncInv_step {step : SyncStep} {s s' : SyncState} {effs : List SyncEffect}
    (hs : SyncInv s) (h : syncStep step s = .ok (s', effs)) : SyncInv s' := by
  cases step with
  | tick current =>
    by_cases hm : s.mapped
    · simp [syncStep, hm] at h
      exact h.1 ▸ hs
    · simp [syncStep, hm] at h
      rcases hs with ⟨hmt, _⟩ | ⟨_, ho⟩
      · exact absurd hmt hm
      · left
        refine ⟨by simp [← h.1], ?_⟩
        simp [← h.1, ho]
  | fireOk =>
    rcases ho : s.outstanding with _ | ⟨captured, rest⟩
    · simp [syncStep, ho] at h
      exact h.1 ▸ hs
    · simp [syncStep, ho] at h
      rcases hs with ⟨_, hlen⟩ | ⟨_, hnil⟩
      · right
        refine ⟨by simp [← h.1], ?_⟩
        simp [ho] at hlen
        simp [← h.1, hlen]
      · simp [ho] at hnil
  | fireErr msg => simp [syncStep] at h

theorem syncInv_run {s s' : SyncState} {steps : List SyncStep}
    (hs : SyncInv s) (h : syncRun s steps = .ok s') : SyncInv s' := by
  induction steps generalizing s with
  | nil => simp [syncRun] at h; exact h ▸ hs
  | cons step rest ih =>
    simp only [syncRun] at h
    rcases hstep : syncStep step s with e | ⟨s1, effs⟩
    · rw [hstep] at h; exact absurd h (by simp)
    · rw [hstep] at h
      exact ih (syncInv_step hs hstep) h

/-! ## Bind-group preparation (`prepare_bind_group`, src/main.rs lines 110-130)

`prepare_bind_group` runs once per render tick (in `RenderSystems::PrepareBindGroups`).
It increments the CPU-side counter (`uniform_data.time += 1;`, a `u32`
addition), then unconditionally calls `render_device.create_bind_group`
with the texture view and the GPU-only uniform buffer and inserts the
result as the `MandelbrotImageBindGroups` resource.  `create_bind_group`
allocates a fresh bind-group object each call; object identity is modelled
by an allocation counter on the render device. -/

/-- A concrete bind group: a fresh allocation id plus the resource views it
binds (the texture view and the uniform buffer, identified by handles). -/
structure BindGroup where
  id : Nat
  textureView : Nat
  buffer : Nat
deriving Repr, DecidableEq

/-- The render device's bind-group allocator: `create_bind_group` returns a
new object, modelled as the next fresh id. -/
structure RenderDeviceState where
  nextBindGroupId : Nat
deriving Repr, DecidableEq

/-- `render_device.create_bind_group(None, layout, entries)`: allocates a
fresh bind-group object binding the given texture view and buffer. -/
def create_bind_group (dev : RenderDeviceState) (texView buf : Nat) :
    BindGroup × RenderDeviceState :=
  (⟨dev.nextBindGroupId, texView, buf⟩, ⟨dev.nextBindGroupId + 1⟩)

/-- `prepare_bind_group` (src/main.rs lines 110-130): increments
`uniform_data.time` by 1 (u32 arithmetic, hence mod `2 ^ 32`), then builds
a new bind group from the current texture view and uniform buffer and
stores it (the returned `BindGroup` replaces the stored
`MandelbrotImageBindGroups` resource). -/
def prepare_bind_group (dev : RenderDeviceState) (texView buf : Nat)
    (u : Uniforms) : Uniforms × BindGroup × RenderDeviceState :=
  let u' : Uniforms := ⟨(u.time + 1) % 2 ^ 32⟩
  let (bg, dev') := create_bind_group dev texView buf
  (u', bg, dev')

/-! ## Pipeline cache interface (external collaborator)

`PipelineCache` is a bevy collaborator: the node only observes it via
`get_compute_pipeline_state` and `get_compute_pipeline`.  Its interface,
per the bevy contract the program relies on: a queued pipeline is
`Queued`/`Creating` until compilation resolves to `Ok` (the compiled
pipeline, thereafter obtainable by id) or `Err`; a compiled pipeline stays
available. -/

/-- `PipelineCacheError`, as the program distinguishes its variants:
`ShaderNotLoaded` (transient) versus every other variant, which carries the
underlying compiler diagnostic. -/
inductive PipelineCacheError where
  | shaderNotLoaded (assetId : String)
  | other (msg : String)
deriving Repr, DecidableEq

/-- The `Display` text of the error, interpolated by `{err}` in the panic
message; for non-transient errors it carries the compiler message. -/
def PipelineCacheError.message : PipelineCacheError → String
  | .shaderNotLoaded assetId => "Shader not loaded: " ++ assetId
  | .other msg => msg

/-- `CachedPipelineState` as observed by `get_compute_pipeline_state`:
`Queued`/`Creating` (both land in the node's `_ => {}` arm), `Ok` with the
compiled pipeline (identified by id), or `Err`. -/
inductive CachedPipelineState where
  | queued
  | creating
  | ok (pipelineId : Nat)
  | err (e : PipelineCacheError)
deriving Repr, DecidableEq

/-- `pipeline_cache.get_compute_pipeline(id)`: returns the compiled
pipeline exactly when the cached state is `Ok`. -/
def getComputePipeline : CachedPipelineState → Option Nat
  | .ok pipelineId => some pipelineId
  | _ => none

/-- One observation step of the external cache: compilation may stay put or
resolve, a compiled pipeline stays compiled, a failure stays failed. -/
inductive CacheStep : CachedPipelineState → CachedPipelineState → Prop
  | stay (s : CachedPipelineState) : CacheStep s s
  | queueToCreating : CacheStep .queued .creating
  | resolveOk (s : CachedPipelineState) (p : Nat)
      (hs : s = .queued ∨ s = .creating) : CacheStep s (.ok p)
  | resolveErr (s : CachedPipelineState) (e : PipelineCacheError)
      (hs : s = .queued ∨ s = .creating) : CacheStep s (.err e)

/-- A cache history is a function from tick number to observed state whose
consecutive observations are cache steps. -/
def CacheTrace (cache : Nat → CachedPipelineState) : Prop :=
  ∀ n, CacheStep (cache n) (cache (n + 1))

theorem cacheStep_ok {s : CachedPipelineState} {p : Nat}
    (h : CacheStep (.ok p) s) : s = .ok p := by
  cases h with
  | stay => rfl
  | resolveOk _ _ hs => rcases hs with h | h <;> exact absurd h (by simp)
  | resolveErr _ _ hs => rcases hs with h | h <;> exact absurd h (by simp)

/-! ## The render-graph node state machine (src/main.rs lines 250-325) -/

/-- `enum MandelbrotState { Loading, Update }` (src/main.rs lines 250-253). -/
inductive MandelbrotState where
  | loading
  | update
deriving Repr, DecidableEq

/-- `MandelbrotNode::update` (src/main.rs lines 266-287).  In `Loading`,
polls `get_compute_pipeline_state`: `Ok(_)` transitions to `Update`;
`Err(ShaderNotLoaded(_))` does nothing (retried next tick); any other
`Err(err)` panics with `"Initializing assets/{SHADER_ASSET_PATH}:\n{err}"`;
the `_ => {}` arm (Queued/Creating) does nothing.  In `Update`, does
nothing. -/
def nodeUpdate (st : MandelbrotState) (ps : CachedPipelineState) :
    Except String MandelbrotState :=
  match st with
  | .loading =>
    match ps with
    | .ok _ => .ok .update
    | .err (.shaderNotLoaded _) => .ok .loading
    | .err e => .error ("Initializing assets/" ++ SHADER_ASSET_PATH ++ ":\n" ++ e.message)
    | _ => .ok .loading
  | .update => .ok .update

/-- Commands recorded into the render context's command encoder. -/
inductive Command where
  | copyBufferToBuffer (src dst srcOffset dstOffset size : Nat)
  | beginComputePass
  | setBindGroup (index : Nat) (bg : BindGroup)
  | setPipeline (pipelineId : Nat)
  | dispatchWorkgroups (x y z : Nat)
deriving Repr, DecidableEq

/-- Handle id of `pipeline.mapped_uniform_buffer` (the staging buffer). -/
def mappedUniformBufferId : Nat := 0

/-- Handle id of `pipeline.uniform_buffer` (the GPU-only uniform buffer). -/
def uniformBufferId : Nat := 1

/-- The workgroup counts passed to `dispatch_workgroups`
(src/main.rs line 319): integer (floor) division of each texture dimension
by `WORKGROUP_SIZE`, depth 1. -/
def dispatchCounts (width height : Nat) : Nat × Nat × Nat :=
  (width / WORKGROUP_SIZE, height / WORKGROUP_SIZE, 1)

/-- `MandelbrotNode::run` (src/main.rs lines 289-324).  Unconditionally
records `copy_buffer_to_buffer(mapped_uniform_buffer, 0, uniform_buffer, 0,
size_of::<Uniforms>())` and begins a compute pass; then in `Loading`
records nothing more, while in `Update` looks the pipeline up in the cache
(`.unwrap()`, modelled as `Except.error` on `none`), sets the bind group
and pipeline, and dispatches `SIZE.0 / WORKGROUP_SIZE` by
`SIZE.1 / WORKGROUP_SIZE` by 1 workgroups. -/
def nodeRun (st : MandelbrotState) (pipelineLookup : Option Nat)
    (bindGroup : BindGroup) : Except String (List Command) :=
  let pre : List Command :=
    [.copyBufferToBuffer mappedUniformBufferId uniformBufferId 0 0 uniformsByteSize,
     .beginComputePass]
  match st with
  | .loading => .ok pre
  | .update =>
    match pipelineLookup with
    | none => .error "called Option::unwrap() on a None value"
    | some pipelineId =>
      let counts := dispatchCounts SIZE.1 SIZE.2
      .ok (pre ++
        [.setBindGroup 0 bindGroup,
         .setPipeline pipelineId,
         .dispatchWorkgroups counts.1 counts.2.1 counts.2.2])

/-- Whether a recorded command is a compute dispatch. -/
def Command.isDispatch : Command → Bool
  | .dispatchWorkgroups _ _ _ => true
  | _ => false

/-- Node state after `n` render-graph ticks: the node starts `Loading`
(`MandelbrotNode::default`, src/main.rs lines 259-263); on each tick
`update` observes the cache and steps the state (a panic, `Except.error`,
ends the execution: `none`). -/
def nodeStateAt (cache : Nat → CachedPipelineState) : Nat → Option MandelbrotState
  | 0 => some .loading
  | n + 1 =>
    match nodeStateAt cache n with
    | none => none
    | some st =>
      match nodeUpdate st (cache n) with
      | .ok st' => some st'
      | .error _ => none

/-- Unfolding equation for `nodeStateAt` at a successor tick. -/
theorem nodeStateAt_succ (cache : Nat → CachedPipelineState) (n : Nat) :
    nodeStateAt cache (n + 1) =
      match nodeStateAt cache n with
      | none => none
      | some st =>
        match nodeUpdate st (cache n) with
        | .ok st' => some st'
        | .error _ => none := rfl

/-- The pipeline has been observed `Ok` by the cache at some tick `j ≤ n`. -/
def observedReadyBy (cache : Nat → CachedPipelineState) (n : Nat) : Prop :=
  ∃ j, j ≤ n ∧ ∃ p, cache j = .ok p

theorem nodeState_update_observedReady (cache : Nat → CachedPipelineState) :
    ∀ n, nodeStateAt cache (n + 1) = some .update → observedReadyBy cache n := by
  intro n
  induction n with
  | zero =>
    intro h
    rw [nodeStateAt_succ] at h
    simp only [nodeStateAt] at h
    rcases hc : cache 0 with _ | _ | p | e
    · rw [hc] at h; simp [nodeUpdate] at h
    · rw [hc] at h; simp [nodeUpdate] at h
    · exact ⟨0, Nat.le_refl 0, p, hc⟩
    · rw [hc] at h
      rcases e with assetId | msg <;> simp [nodeUpdate] at h
  | succ n ih =>
    intro h
    rw [nodeStateAt_succ] at h
    rcases hst : nodeStateAt cache (n + 1) with _ | st
    · rw [hst] at h; simp at h
    · rw [hst] at h
      cases st with
      | update =>
        obtain ⟨j, hj, p, hp⟩ := ih hst
        exact ⟨j, Nat.le_succ_of_le hj, p, hp⟩
      | loading =>
        rcases hc : cache (n + 1) with _ | _ | p | e
        · rw [hc] at h; simp [nodeUpdate] at h
        · rw [hc] at h; simp [nodeUpdate] at h
        · exact ⟨n + 1, Nat.le_refl _, p, hc⟩
        · rw [hc] at h
          rcases e with assetId | msg <;> simp [nodeUpdate] at h

theorem nodeState_update_cache_ok {cache : Nat → CachedPipelineState}
    (htrace : CacheTrace cache) :
    ∀ n, nodeStateAt cache (n + 1) = some .update → ∃ p, cache n = .ok p := by
  intro n
  induction n with
  | zero =>
    intro h
    rw [nodeStateAt_succ] at h
    simp only [nodeStateAt] at h
    rcases hc : cache 0 with _ | _ | p | e
    · rw [hc] at h; simp [nodeUpdate] at h
    · rw [hc] at h; simp [nodeUpdate] at h
    · exact ⟨p, rfl⟩
    · rw [hc] at h
      rcases e with assetId | msg <;> simp [nodeUpdate] at h
  | succ n ih =>
    intro h
    rw [nodeStateAt_succ] at h
    rcases hst : nodeStateAt cache (n + 1) with _ | st
    · rw [hst] at h; simp at h
    · rw [hst] at h
      cases st with
      | update =>
        obtain ⟨p, hp⟩ := ih hst
        exact ⟨p, cacheStep_ok (hp ▸ htrace n)⟩
      | loading =>
        rcases hc : cache (n + 1) with _ | _ | p | e
        · rw [hc] at h; simp [nodeUpdate] at h
        · rw [hc] at h; simp [nodeUpdate] at h
        · exact ⟨p, rfl⟩
        · rw [hc] at h
          rcases e with assetId | msg <;> simp [nodeUpdate] at h

/-- The copy command recorded at the head of every `run`'s command list. -/
def theCopyCommand : Command :=
  .copyBufferToBuffer mappedUniformBufferId uniformBufferId 0 0 uniformsByteSize

/-- The command list opens with the staging-to-uniform copy, and every
dispatch command sits at a strictly later index. -/
def CopyBeforeDispatch (cmds : List Command) : Prop :=
  cmds.head? = some theCopyCommand ∧
  ∀ i c, cmds[i]? = some c → c.isDispatch = true → 0 < i

theorem dispatch_pos_of_head {cmds : List Command}
    (h0 : cmds.head? = some theCopyCommand) :
    ∀ i c, cmds[i]? = some c → c.isDispatch = true → 0 < i := by
  intro i c h hd
  cases i with
  | zero =>
    cases cmds with
    | nil => simp at h0
    | cons a t =>
      simp only [List.head?_cons, Option.some_inj] at h0
      simp only [List.getElem?_cons_zero, Option.some_inj] at h
      rw [← h, h0] at hd
      simp [theCopyCommand, Command.isDispatch] at hd
  | succ n => exact Nat.succ_pos n

/-! ## Claim theorems -/

/-- C1: in every render-graph run, a recorded compute dispatch forces the
node's state to be `Update` (so no dispatch is ever recorded while the
state is `Loading`), and the node can only be in `Update` at tick `n` if
the pipeline cache was observed `Ok` at some tick `j ≤ n`: a dispatch is
never recorded before the pipeline has been observed ready. -/
theorem c1_readiness_gate :
    ∀ (cache : Nat → CachedPipelineState) (n : Nat) (st : MandelbrotState)
      (lookup : Option Nat) (bg : BindGroup) (cmds : List Command) (c : Command),
      nodeStateAt cache (n + 1) = some st →
      nodeRun st lookup bg = Except.ok cmds →
      c ∈ cmds → c.isDispatch = true →
      st = MandelbrotState.update ∧ observedReadyBy cache n := by
  intro cache n st lookup bg cmds c hstate hrun hmem hdisp
  have hst : st = MandelbrotState.update := by
    cases st with
    | update => rfl
    | loading =>
      simp only [nodeRun, Except.ok.injEq] at hrun
      rw [← hrun] at hmem
      simp only [List.mem_cons, List.not_mem_nil, or_false] at hmem
      rcases hmem with h | h
      · rw [h] at hdisp; simp [Command.isDispatch] at hdisp
      · rw [h] at hdisp; simp [Command.isDispatch] at hdisp
  subst hst
  exact ⟨rfl, nodeState_update_observedReady cache n hstate⟩

/-- C1 witness: with a cache that reports `Ok` from tick 0, the node is in
`Update` at tick 0 and a dispatch is recorded; the theorem instantiates. -/
theorem c1_readiness_gate_witness :
    MandelbrotState.update = MandelbrotState.update ∧
      observedReadyBy (fun _ => CachedPipelineState.ok 0) 0 :=
  c1_readiness_gate (fun _ => CachedPipelineState.ok 0) 0 MandelbrotState.update
    (some 0) ⟨0, 0, 0⟩
    [theCopyCommand, Command.beginComputePass, Command.setBindGroup 0 ⟨0, 0, 0⟩,
     Command.setPipeline 0, Command.dispatchWorkgroups 160 90 1]
    (Command.dispatchWorkgroups 160 90 1) rfl rfl (by simp) rfl

/-- C2: in every execution of the synchronizer from its initial state, at
most one staging-buffer map request is outstanding, and a tick made while
the `MAPPED` gate is set returns immediately — same state, no map request,
no poll, no error (a no-op). -/
theorem c2_single_in_flight_map :
    ∀ (steps : List SyncStep) (s : SyncState) (u : Uniforms),
      syncRun syncInit steps = Except.ok s →
      s.outstanding.length ≤ 1 ∧
      (s.mapped = true → syncStep (SyncStep.tick u) s = Except.ok (s, [])) := by
  intro steps s u hrun
  have hinv := syncInv_run syncInv_init hrun
  constructor
  · rcases hinv with ⟨_, hlen⟩ | ⟨_, hnil⟩
    · omega
    · simp [hnil]
  · intro hm
    simp [syncStep, hm]

/-- C2 witness: after one tick a request is outstanding; a second tick
while the gate is set is a no-op. -/
theorem c2_single_in_flight_map_witness :
    (⟨true, [⟨1⟩], ⟨0⟩⟩ : SyncState).outstanding.length ≤ 1 ∧
      syncStep (SyncStep.tick ⟨2⟩) ⟨true, [⟨1⟩], ⟨0⟩⟩ =
        Except.ok (⟨true, [⟨1⟩], ⟨0⟩⟩, []) :=
  have h := c2_single_in_flight_map [SyncStep.tick ⟨1⟩] ⟨true, [⟨1⟩], ⟨0⟩⟩ ⟨2⟩ rfl
  ⟨h.1, h.2 rfl⟩

/-- C3 counterexample: on a tick where the in-flight gate is already set,
`update_uniforms` returns early with an empty effect list — in particular
no `render_device.poll(PollType::Wait)` is performed, contradicting the
claim that the blocking wait happens on every tick. -/
theorem c3_poll_counterexample :
    syncStep (SyncStep.tick ⟨4⟩) ⟨true, [⟨3⟩], ⟨0⟩⟩ =
      Except.ok (⟨true, [⟨3⟩], ⟨0⟩⟩, []) ∧
    SyncEffect.pollWait ∉ ([] : List SyncEffect) := by
  constructor
  · rfl
  · simp

/-- C3 (amended): the blocking device poll is performed exactly on the
ticks where the gate was clear and a new map request was issued; when the
gate is already set, `update_uniforms` returns early without polling. -/
theorem c3_poll_only_with_new_request :
    ∀ (u : Uniforms) (s s' : SyncState) (effs : List SyncEffect),
      syncStep (SyncStep.tick u) s = Except.ok (s', effs) →
      (SyncEffect.pollWait ∈ effs ↔ s.mapped = false) ∧
      (s.mapped = false → effs = [SyncEffect.mapRequest u, SyncEffect.pollWait]) := by
  intro u s s' effs h
  cases hm : s.mapped with
  | true =>
    simp [syncStep, hm] at h
    obtain ⟨h1, h2⟩ := h
    subst h2
    refine ⟨by simp [hm], fun hf => ?_⟩
    exact absurd hf (by simp)
  | false =>
    simp [syncStep, hm] at h
    obtain ⟨h1, h2⟩ := h
    subst h2
    exact ⟨by simp [hm], fun _ => rfl⟩

/-- C3 amended-claim witness: on a gate-clear tick the effects are the map
request followed by the poll. -/
theorem c3_poll_only_with_new_request_witness :
    (SyncEffect.pollWait ∈ [SyncEffect.mapRequest ⟨5⟩, SyncEffect.pollWait] ↔
       syncInit.mapped = false) ∧
    (syncInit.mapped = false →
       [SyncEffect.mapRequest ⟨5⟩, SyncEffect.pollWait] =
         [SyncEffect.mapRequest ⟨5⟩, SyncEffect.pollWait]) :=
  c3_poll_only_with_new_request ⟨5⟩ syncInit ⟨true, [⟨5⟩], ⟨0⟩⟩
    [SyncEffect.mapRequest ⟨5⟩, SyncEffect.pollWait] rfl

/-- C4 counterexample: request issued while the counter is 1; the counter
advances to 2 before the callback fires; the callback writes 1 (the
request-time value) into the staging buffer, not 2 (the value current at
callback-fire time), contradicting the claim. -/
theorem c4_snapshot_counterexample :
    syncRun syncInit [SyncStep.tick ⟨1⟩, SyncStep.tick ⟨2⟩, SyncStep.fireOk] =
      Except.ok ⟨false, [], ⟨1⟩⟩ ∧
    (⟨1⟩ : Uniforms) ≠ (⟨2⟩ : Uniforms) := by
  constructor
  · rfl
  · decide

/-- C4 (amended): the completed map callback writes into the staging buffer
the `Uniforms` value that was captured by value when the map request was
issued, not the value current at callback-fire time. -/
theorem c4_callback_writes_request_time_value :
    ∀ (s : SyncState) (u : Uniforms) (rest : List Uniforms),
      s.outstanding = u :: rest →
      syncStep SyncStep.fireOk s =
        Except.ok (⟨false, rest, u⟩, []) := by
  intro s u rest h
  simp [syncStep, h]

/-- C4 amended-claim witness: firing the callback writes the captured value
7 even though the staging buffer held 9. -/
theorem c4_callback_writes_request_time_value_witness :
    syncStep SyncStep.fireOk ⟨true, [⟨7⟩], ⟨9⟩⟩ =
      Except.ok (⟨false, [], ⟨7⟩⟩, []) :=
  c4_callback_writes_request_time_value ⟨true, [⟨7⟩], ⟨9⟩⟩ ⟨7⟩ [] rfl

/-- C5: every command list recorded by `run` starts with the
staging-to-uniform `copy_buffer_to_buffer` of exactly
`size_of::<Uniforms>()` = 4 bytes — recorded unconditionally, in `Loading`
and in `Update` alike — and any compute dispatch in the list sits at a
strictly later index than the copy. -/
theorem c5_copy_before_dispatch :
    ∀ (st : MandelbrotState) (lookup : Option Nat) (bg : BindGroup)
      (cmds : List Command),
      nodeRun st lookup bg = Except.ok cmds →
      CopyBeforeDispatch cmds ∧ uniformsByteSize = 4 := by
  intro st lookup bg cmds hrun
  have hhead : cmds.head? = some theCopyCommand := by
    cases st with
    | loading =>
      simp only [nodeRun, Except.ok.injEq] at hrun
      rw [← hrun]; rfl
    | update =>
      rcases lookup with _ | p
      · simp [nodeRun] at hrun
      · simp only [nodeRun, Except.ok.injEq] at hrun
        rw [← hrun]; rfl
  exact ⟨⟨hhead, dispatch_pos_of_head hhead⟩, rfl⟩

/-- C5 witness: the `Loading`-state command list satisfies the ordering. -/
theorem c5_copy_before_dispatch_witness :
    CopyBeforeDispatch [theCopyCommand, Command.beginComputePass] ∧
      uniformsByteSize = 4 :=
  c5_copy_before_dispatch MandelbrotState.loading none ⟨0, 0, 0⟩
    [theCopyCommand, Command.beginComputePass] rfl

/-- C6: the dispatch workgroup counts are the floor of each texture
dimension divided by `WORKGROUP_SIZE` with depth 1 (the
`w % WORKGROUP_SIZE` remainder silently undispatched); at 320×180 with
workgroup size 8 they are `(40, 22, 1)` (note `8 * 22 ≤ 180 < 8 * 23`),
and the dispatch the node records at its actual 1280×720 texture is
`(160, 90, 1)`. -/
theorem c6_dispatch_workgroup_counts :
    ∀ (p : Nat) (bg : BindGroup) (w h : Nat),
      dispatchCounts 320 180 = (40, 22, 1) ∧
      WORKGROUP_SIZE * 22 ≤ 180 ∧ 180 < WORKGROUP_SIZE * (22 + 1) ∧
      WORKGROUP_SIZE * (dispatchCounts w h).1 + w % WORKGROUP_SIZE = w ∧
      WORKGROUP_SIZE * (dispatchCounts w h).2.1 + h % WORKGROUP_SIZE = h ∧
      (dispatchCounts w h).2.2 = 1 ∧
      nodeRun MandelbrotState.update (some p) bg =
        Except.ok [theCopyCommand, Command.beginComputePass,
          Command.setBindGroup 0 bg, Command.setPipeline p,
          Command.dispatchWorkgroups 160 90 1] := by
  intro p bg w h
  refine ⟨by decide, by decide, by decide, ?_, ?_, rfl, rfl⟩
  · simpa [dispatchCounts, WORKGROUP_SIZE] using Nat.div_add_mod w 8
  · simpa [dispatchCounts, WORKGROUP_SIZE] using Nat.div_add_mod h 8

/-- C7: `prepare_bind_group` increments the CPU-side counter by exactly 1
each tick (u32 arithmetic: by 1 modulo `2 ^ 32`, hence by exactly 1 for
every non-wrapping value), independent of the device state, the resource
handles, and any map/copy completion. -/
theorem c7_counter_increments_by_one :
    ∀ (dev : RenderDeviceState) (texView buf : Nat) (u : Uniforms),
      ((prepare_bind_group dev texView buf u).1).time = (u.time + 1) % 2 ^ 32 ∧
      (u.time + 1 < 2 ^ 32 →
        ((prepare_bind_group dev texView buf u).1).time = u.time + 1) := by
  intro dev texView buf u
  constructor
  · rfl
  · intro hlt
    simp only [prepare_bind_group]
    exact Nat.mod_eq_of_lt hlt

/-- C7 witness: at counter value 41 the prepared counter is exactly 42. -/
theorem c7_counter_increments_by_one_witness :
    ((prepare_bind_group ⟨0⟩ 0 0 ⟨41⟩).1).time = (41 + 1) % 2 ^ 32 ∧
      ((prepare_bind_group ⟨0⟩ 0 0 ⟨41⟩).1).time = 41 + 1 :=
  have h := c7_counter_increments_by_one ⟨0⟩ 0 0 ⟨41⟩
  ⟨h.1, h.2 (by norm_num)⟩

/-- C8: while `Loading`, a transient `ShaderNotLoaded` poll result leaves
the state unchanged with no error (retried next tick), the non-error poll
results (`Queued`/`Creating`) likewise, and any other compile error panics
immediately with the diagnostic
`"Initializing assets/mandelbrot.wgsl:\n"` followed by the underlying
compiler message — naming the shader reference and including the
underlying diagnostic. -/
theorem c8_update_error_policy :
    ∀ (assetId msg : String),
      nodeUpdate MandelbrotState.loading
          (CachedPipelineState.err (PipelineCacheError.shaderNotLoaded assetId)) =
        Except.ok MandelbrotState.loading ∧
      nodeUpdate MandelbrotState.loading
          (CachedPipelineState.err (PipelineCacheError.other msg)) =
        Except.error ("Initializing assets/" ++ SHADER_ASSET_PATH ++ ":\n" ++ msg) ∧
      nodeUpdate MandelbrotState.loading CachedPipelineState.queued =
        Except.ok MandelbrotState.loading ∧
      nodeUpdate MandelbrotState.loading CachedPipelineState.creating =
        Except.ok MandelbrotState.loading := by
  intro assetId msg
  exact ⟨rfl, rfl, rfl, rfl⟩

/-- C9 counterexample: two consecutive `prepare_bind_group` ticks with
identical texture and buffer handles (5 and 7) store two distinct bind
groups — the stored resource changes even though no handle changed,
contradicting the claim that it is rebuilt only on handle churn. -/
theorem c9_rebuild_counterexample :
    (prepare_bind_group (prepare_bind_group ⟨0⟩ 5 7 ⟨0⟩).2.2 5 7
        (prepare_bind_group ⟨0⟩ 5 7 ⟨0⟩).1).2.1 ≠
      (prepare_bind_group ⟨0⟩ 5 7 ⟨0⟩).2.1 := by
  decide

/-- C9 (amended): `prepare_bind_group` unconditionally creates a fresh bind
group every tick and stores it, regardless of whether the texture or
buffer handles changed; consecutive ticks with identical handles store
distinct bind-group objects. -/
theorem c9_bind_group_rebuilt_every_tick :
    ∀ (dev : RenderDeviceState) (texView buf : Nat) (u : Uniforms),
      (prepare_bind_group dev texView buf u).2.1 =
        ⟨dev.nextBindGroupId, texView, buf⟩ ∧
      ((prepare_bind_group dev texView buf u).2.2).nextBindGroupId =
        dev.nextBindGroupId + 1 ∧
      (prepare_bind_group (prepare_bind_group dev texView buf u).2.2 texView buf
          (prepare_bind_group dev texView buf u).1).2.1 ≠
        (prepare_bind_group dev texView buf u).2.1 := by
  intro dev texView buf u
  refine ⟨rfl, rfl, ?_⟩
  simp only [prepare_bind_group, create_bind_group, ne_eq, BindGroup.mk.injEq]
  intro hcontra
  omega

/-- C10: under any valid cache history, whenever the node is in `Update`
at a tick, `get_compute_pipeline` at that tick returns `Some`, so the
`.unwrap()` in `run` never panics: `run` succeeds. -/
theorem c10_unwrap_never_panics :
    ∀ (cache : Nat → CachedPipelineState) (n : Nat) (bg : BindGroup),
      CacheTrace cache →
      nodeStateAt cache (n + 1) = some MandelbrotState.update →
      (getComputePipeline (cache n)).isSome = true ∧
      (nodeRun MandelbrotState.update (getComputePipeline (cache n)) bg).isOk = true := by
  intro cache n bg htrace hstate
  obtain ⟨p, hp⟩ := nodeState_update_cache_ok htrace n hstate
  rw [hp]
  exact ⟨rfl, rfl⟩

/-- C10 witness: with a constantly-`Ok` cache the node is in `Update` at
tick 0 and `run` succeeds without the unwrap panicking. -/
theorem c10_unwrap_never_panics_witness :
    (getComputePipeline ((fun _ => CachedPipelineState.ok 3) 0)).isSome = true ∧
      (nodeRun MandelbrotState.update
        (getComputePipeline ((fun _ => CachedPipelineState.ok 3) 0)) ⟨0, 0, 0⟩).isOk = true :=
  c10_unwrap_never_panics (fun _ => CachedPipelineState.ok 3) 0 ⟨0, 0, 0⟩
    (fun _ => CacheStep.stay _) rfl

end Mandelbrot
